import Mathlib

/-!
# Verification of the Music-Bot queue, playback and cache logic

Shallow embedding of the per-guild state and of the operations in
`src/services/queue_service.py`, `src/services/playback_service.py`,
`src/services/music_service.py`, `src/bot.py` and the seek clamp of
`src/cogs/music_commands.py`, together with theorems settling the
behavioural claims about them.

Modelling conventions:
* Python `int` becomes `Int` where negative values are meaningful
  (positions, durations, times) and `Nat` where the source only ever
  holds lengths.
* `random.shuffle` is modelled by an explicit function parameter
  `shuf : List Song → List Song`.
* Network/FFmpeg effects (`get_song_info`, audio-source creation) are
  modelled by oracle parameters (`resolveStream`, `playOk`).
* Discord side effects that the claims mention (queue snapshot saves,
  channel notifications) are modelled as an emitted event list.
* The discord voice client is modelled by the flags `vc_connected`
  (present and connected), `vc_playing`, `vc_paused`.
-/

namespace MusicBot

/-- Fields of `Song.__init__` of `src/models/song.py`. -/
structure Song where
  url : String
  title : String
  duration : Int
  thumbnail : String
  uploader : String
  webpage_url : String
  requested_by : String
deriving Repr, DecidableEq

/-- The dictionary produced by `Song.to_dict` / consumed by `Song.from_dict`:
each of the seven keys may be absent (`from_dict` uses `data.get` defaults). -/
structure SongDict where
  url : Option String
  title : Option String
  duration : Option Int
  thumbnail : Option String
  uploader : Option String
  webpage_url : Option String
  requested_by : Option String
deriving Repr, DecidableEq

/-- Embedding of `Song.to_dict` of `src/models/song.py`: every key is present. -/
def Song.to_dict (s : Song) : SongDict :=
  ⟨some s.url, some s.title, some s.duration, some s.thumbnail,
   some s.uploader, some s.webpage_url, some s.requested_by⟩

/-- Embedding of `Song.from_dict` of `src/models/song.py` (`data.get` with the
defaults of `Song.__init__`). -/
def Song.from_dict (d : SongDict) : Song :=
  ⟨d.url.getD "", d.title.getD "Unknown Title", d.duration.getD 0,
   d.thumbnail.getD "", d.uploader.getD "Unknown",
   d.webpage_url.getD "", d.requested_by.getD "Unknown"⟩

/-- The idiom `Song.from_dict(song.to_dict())` used throughout the
services to copy a song. -/
def Song.copy (s : Song) : Song := Song.from_dict s.to_dict

/-- The `loop_mode` values `"off"`, `"song"`, `"queue"`. -/
inductive LoopMode
  | off
  | song
  | queue
deriving Repr, DecidableEq

/-- Constant `MAX_HISTORY_SIZE` from `src/config.py`. -/
def MAX_HISTORY_SIZE : Nat := 30

/-- Constant `MAX_CACHE_SIZE` from `src/config.py` (also `bot.max_cache_size`). -/
def MAX_CACHE_SIZE : Nat := 500

/-- Constant `CACHE_TTL` from `src/config.py` (also `bot.cache_ttl`). -/
def CACHE_TTL : Int := 3600

/-- The per-guild mutable dictionary created by `MusicBot.get_guild_data`
(`src/bot.py`), restricted to the fields the verified operations touch. -/
structure GuildState where
  queue : List Song
  loop_backup : List Song
  history : List Song
  history_position : Nat
  current : Option Song
  position : Int
  seek_offset : Int
  loop_mode : LoopMode
  shuffle : Bool
  volume : Nat
  intentional_disconnect : Bool
  last_activity : Option Nat
  start_time : Option Nat
  seeking : Bool
  vc_connected : Bool
  vc_playing : Bool
  vc_paused : Bool
deriving Repr, DecidableEq

/-- The fresh guild entry installed by `MusicBot.get_guild_data`
(`src/bot.py`): empty queues, `loop_mode="off"`, no current song,
no voice client. -/
def initialGuildState (now : Nat) : GuildState where
  queue := []
  loop_backup := []
  history := []
  history_position := 0
  current := none
  position := 0
  seek_offset := 0
  loop_mode := .off
  shuffle := false
  volume := 100
  intentional_disconnect := false
  last_activity := some now
  start_time := none
  seeking := false
  vc_connected := false
  vc_playing := false
  vc_paused := false

/-! ## QueueService (`src/services/queue_service.py`) -/

/-- First-occurrence deduplication by `webpage_url` (the `seen_urls`
loop inside `QueueService.sync_loop_backup`). -/
def dedupByUrl : List String → List Song → List Song
  | _, [] => []
  | seen, s :: rest =>
    if seen.contains s.webpage_url then dedupByUrl seen rest
    else s :: dedupByUrl (s.webpage_url :: seen) rest

/-- Embedding of `QueueService.sync_loop_backup`: only acts when `force_rebuild`. -/
def sync_loop_backup (st : GuildState) (force_rebuild : Bool) : GuildState :=
  if force_rebuild then { st with loop_backup := dedupByUrl [] st.loop_backup }
  else st

/-- Embedding of `QueueService.add_to_history`: dedup check against `history`, append a
copy, set `history_position` to the new length, truncate to the most
recent `MAX_HISTORY_SIZE` entries (re-clamping `history_position`), then
mirror the song into `loop_backup` when its url is not there yet. -/
def add_to_history (st : GuildState) (song : Song) : GuildState :=
  if st.history.any (fun s => s.webpage_url == song.webpage_url) then st
  else
    let h1 := st.history ++ [Song.copy song]
    let p1 := h1.length
    let h2 := if MAX_HISTORY_SIZE < h1.length then h1.drop (h1.length - MAX_HISTORY_SIZE) else h1
    let p2 := if MAX_HISTORY_SIZE < h1.length then min p1 h2.length else p1
    let lb :=
      if st.loop_backup.any (fun s => s.webpage_url == song.webpage_url) then st.loop_backup
      else st.loop_backup ++ [Song.copy song]
    { st with history := h2, history_position := p2, loop_backup := lb }

/-- Embedding of `QueueService.get_next_song`: song-repeat returns a copy of `current`;
otherwise pop the queue front; otherwise under queue-repeat rebuild the
queue from copies of `loop_backup` (shuffled when `shuffle`) and pop the
front; otherwise `None`. -/
def get_next_song (shuf : List Song → List Song) (st : GuildState) :
    Option Song × GuildState :=
  if st.loop_mode = .song ∧ st.current.isSome then
    (st.current.map Song.copy, st)
  else
    match st.queue with
    | s :: rest => (some s, { st with queue := rest })
    | [] =>
      if st.loop_mode = .queue ∧ st.loop_backup ≠ [] then
        let rebuilt0 := st.loop_backup.map Song.copy
        let rebuilt := if st.shuffle then shuf rebuilt0 else rebuilt0
        match rebuilt with
        | s :: rest => (some s, { st with queue := rest })
        | [] => (none, { st with queue := [] })
      else (none, st)

/-- Embedding of `QueueService.clear_queue`. -/
def clear_queue (st : GuildState) : GuildState :=
  { st with queue := [], loop_backup := [] }

/-- Embedding of `QueueService.remove_song_from_queue`: bounds-checked `queue.pop(position)`. -/
def remove_song_from_queue (st : GuildState) (position : Int) :
    Option Song × GuildState :=
  if position < 0 ∨ (st.queue.length : Int) ≤ position then (none, st)
  else
    (st.queue.get? position.toNat,
     { st with queue := st.queue.eraseIdx position.toNat })

/-- Embedding of `QueueService.move_song_in_queue`: bounds-checked
`pop(from_pos)` followed by `insert(to_pos, song)`. -/
def move_song_in_queue (st : GuildState) (from_pos to_pos : Int) :
    Bool × GuildState :=
  if h : from_pos < 0 ∨ (st.queue.length : Int) ≤ from_pos ∨
      to_pos < 0 ∨ (st.queue.length : Int) ≤ to_pos then
    (false, st)
  else
    have hf : from_pos.toNat < st.queue.length := by omega
    let moved := st.queue.get ⟨from_pos.toNat, hf⟩
    (true,
     { st with queue := (st.queue.eraseIdx from_pos.toNat).insertIdx to_pos.toNat moved })

/-- Embedding of `QueueService.set_loop_mode`: store the mode; entering queue-repeat
calls `sync_loop_backup` without `force_rebuild` (a no-op). -/
def set_loop_mode (st : GuildState) (mode : LoopMode) : GuildState :=
  let st1 := { st with loop_mode := mode }
  if mode = .queue then sync_loop_backup st1 false else st1

/-- Embedding of `QueueService.add_song_to_queue`: append to `queue` and append a copy
to `loop_backup` (unconditionally). -/
def add_song_to_queue (st : GuildState) (song : Song) : GuildState :=
  { st with
      queue := st.queue ++ [song],
      loop_backup := st.loop_backup ++ [Song.copy song] }

/-! ## PlaybackService (`src/services/playback_service.py`) -/

/-- Observable side effects of the playback engine: queue snapshot saves
(`bot.save_guild_queue`), the now-playing message update, the
"Song Skipped" channel notice, the "Queue Empty" message edit and the
terminal "Playback Stopped" channel notice. -/
inductive PEvent
  | save
  | nowPlayingUpdate (title : String)
  | skipNotice (title : String)
  | queueEmptyNotice
  | terminalFailure
deriving Repr, DecidableEq

/-- Constant `max_skip_attempts` in `PlaybackService.play_next`. -/
def MAX_SKIP_ATTEMPTS : Nat := 10

/-- Constant `max_retries` in `PlaybackService._extract_and_play_song`. -/
def MAX_STREAM_RETRIES : Nat := 3

/-- Embedding of `PlaybackService._handle_song_skip`: append the failed candidate to
history unless song-repeat is active, emit the skip notice, and disable
song-repeat when it is active. -/
def handle_song_skip (st : GuildState) (song : Song) : GuildState × List PEvent :=
  let st1 := if st.loop_mode ≠ .song then add_to_history st song else st
  let st2 := if st1.loop_mode = .song then { st1 with loop_mode := .off } else st1
  (st2, [.skipNotice song.title])

/-- Embedding of `PlaybackService._handle_empty_queue`. -/
def handle_empty_queue (st : GuildState) (now : Nat) : GuildState × List PEvent :=
  ({ st with current := none, position := 0, start_time := none,
             last_activity := some now },
   [.queueEmptyNotice, .save])

/-- Embedding of `PlaybackService._handle_max_retries_exceeded`: clear `current`,
persist the queue, emit one terminal failure notice. -/
def handle_max_retries_exceeded (st : GuildState) : GuildState × List PEvent :=
  ({ st with current := none, start_time := none }, [.save, .terminalFailure])

/-- Embedding of `PlaybackService._start_playback` with audio-source creation modelled
by the oracle `playOk`: on success install the song as `current`, reset
`seek_offset`/`position`, start the clock and save; on failure fall back
to `_handle_song_skip`. -/
def start_playback (playOk : Song → Bool) (now : Nat) (st : GuildState)
    (song : Song) : GuildState × List PEvent × Bool :=
  if playOk song then
    ({ st with current := some song, seek_offset := 0, position := 0,
               start_time := some now, last_activity := some now,
               vc_playing := true, vc_paused := false },
     ([.nowPlayingUpdate song.title, .save], true))
  else
    ((handle_song_skip st song).1, ((handle_song_skip st song).2, false))

/-- Embedding of `PlaybackService._extract_and_play_song` with stream extraction
modelled by the oracle `resolveStream song attempt` (the returned song is
the candidate with its `url`/metadata refreshed): the first of the
`MAX_STREAM_RETRIES` attempts that yields data goes to `_start_playback`;
if all attempts fail, `_handle_song_skip` runs and `False` is returned. -/
def extract_and_play_song (resolveStream : Song → Nat → Option Song)
    (playOk : Song → Bool) (now : Nat) (st : GuildState) (song : Song) :
    GuildState × List PEvent × Bool :=
  match (List.range MAX_STREAM_RETRIES).findSome? (resolveStream song) with
  | some fresh => start_playback playOk now st fresh
  | none =>
    ((handle_song_skip st song).1, ((handle_song_skip st song).2, false))

/-- The `while skip_count < max_skip_attempts` loop of
`PlaybackService.play_next`, with `fuel` the number of attempts left:
each round dequeues the next candidate (empty queue ends playback) and
tries to play it; exhausting the fuel runs
`_handle_max_retries_exceeded`. -/
def play_next_loop (shuf : List Song → List Song)
    (resolveStream : Song → Nat → Option Song) (playOk : Song → Bool)
    (now : Nat) : Nat → GuildState → GuildState × List PEvent
  | 0, st => handle_max_retries_exceeded st
  | fuel + 1, st =>
    match (get_next_song shuf st).1 with
    | none => handle_empty_queue (get_next_song shuf st).2 now
    | some song =>
      if (extract_and_play_song resolveStream playOk now
            (get_next_song shuf st).2 song).2.2 then
        ((extract_and_play_song resolveStream playOk now
            (get_next_song shuf st).2 song).1,
         (extract_and_play_song resolveStream playOk now
            (get_next_song shuf st).2 song).2.1)
      else
        ((play_next_loop shuf resolveStream playOk now fuel
            (extract_and_play_song resolveStream playOk now
              (get_next_song shuf st).2 song).1).1,
         (extract_and_play_song resolveStream playOk now
            (get_next_song shuf st).2 song).2.1 ++
          (play_next_loop shuf resolveStream playOk now fuel
            (extract_and_play_song resolveStream playOk now
              (get_next_song shuf st).2 song).1).2)

/-- Embedding of `PlaybackService.play_next`: the re-entrancy and voice-client guards
followed by the skip loop. -/
def play_next (shuf : List Song → List Song)
    (resolveStream : Song → Nat → Option Song) (playOk : Song → Bool)
    (now : Nat) (st : GuildState) : GuildState × List PEvent :=
  if st.seeking then (st, [])
  else if st.current.isSome ∧ st.vc_connected ∧ (st.vc_playing ∨ st.vc_paused) then
    (st, [])
  else if ¬ st.vc_connected then
    ({ st with current := none, position := 0, start_time := none,
               last_activity := some now }, [])
  else
    play_next_loop shuf resolveStream playOk now MAX_SKIP_ATTEMPTS st

/-! ## Voice disconnect and recovery (`src/bot.py`) -/

/-- The `before.channel and not after.channel` branch of
`MusicBot.on_voice_state_update`: the voice client is gone; an
intentional disconnect resets the guild; otherwise, when reconnection is
enabled and there was a current song or a queue, a recovery attempt is
scheduled (returned flag `true`); otherwise the guild is reset. -/
def on_voice_disconnect (voice_reconnect_enabled : Bool) (st : GuildState) :
    GuildState × Bool :=
  if st.intentional_disconnect then
    ({ st with vc_connected := false, vc_playing := false, vc_paused := false,
               intentional_disconnect := false, current := none,
               start_time := none, history_position := st.history.length,
               queue := [], loop_backup := [] },
     false)
  else if voice_reconnect_enabled ∧ (st.current.isSome ∨ st.queue ≠ []) then
    ({ st with vc_connected := false, vc_playing := false, vc_paused := false },
     true)
  else
    ({ st with vc_connected := false, vc_playing := false, vc_paused := false,
               current := none, start_time := none,
               history_position := st.history.length,
               queue := [], loop_backup := [] },
     false)

/-- Embedding of `MusicBot._resume_playback_after_reconnect`: if a song was interrupted,
clear `current`, reinsert it at the queue head and run `play_next`; with
only a queue left just run `play_next`. -/
def resume_playback_after_reconnect (shuf : List Song → List Song)
    (resolveStream : Song → Nat → Option Song) (playOk : Song → Bool)
    (now : Nat) (st : GuildState) : GuildState × List PEvent :=
  match st.current with
  | some c =>
    play_next shuf resolveStream playOk now
      { st with current := none, queue := c :: st.queue }
  | none =>
    if st.queue ≠ [] then play_next shuf resolveStream playOk now st
    else (st, [])

/-! ## Seek clamp (`src/cogs/music_commands.py`, `seek_slash`) -/

/-- The clamp applied to the parsed seek target in
`MusicCommands.seek_slash`: negative targets become 0; when the song has
a positive duration, targets within the last 5 seconds (or beyond) snap
to `max 0 (duration - 5)`. -/
def seek_clamp (duration : Int) (target : Int) : Int :=
  if target < 0 then 0
  else if 0 < duration ∧ duration - 5 ≤ target then max 0 (duration - 5)
  else target

/-! ## Song-info cache (`src/services/music_service.py`) -/

/-- A `bot.song_cache` entry: the resolved data with its insertion time. -/
structure CacheEntry (α : Type) where
  data : α
  cached_at : Int
deriving Repr, DecidableEq

/-- The cache `bot.song_cache`, a dict keyed by the normalized query. -/
def SongCache (α : Type) : Type := List (String × CacheEntry α)

/-- Python `str.lower()` (ASCII case mapping), character by character. -/
def pyLower (s : String) : String := ⟨s.data.map Char.toLower⟩

/-- Python `str.strip()`: drop leading and trailing whitespace. -/
def pyStrip (s : String) : String :=
  ⟨((s.data.dropWhile Char.isWhitespace).reverse.dropWhile Char.isWhitespace).reverse⟩

/-- Embedding of `url_or_query.lower().strip()`. -/
def cacheKey (s : String) : String := pyStrip (pyLower s)

/-- Dict lookup. -/
def cacheFind (c : SongCache α) (k : String) : Option (CacheEntry α) :=
  (List.find? (fun kv => kv.1 == k) c).map Prod.snd

/-- Dict assignment `cache[key] = entry`. -/
def cacheInsert (c : SongCache α) (k : String) (e : CacheEntry α) : SongCache α :=
  (k, e) :: List.filter (fun kv => kv.1 != k) c

/-- Embedding of `MusicService._cleanup_cache_if_needed`: when the cache exceeds
`max_cache_size`, delete the 100 entries with the oldest `cached_at`. -/
def cleanup_cache_if_needed (c : SongCache α) : SongCache α :=
  if MAX_CACHE_SIZE < c.length then
    let sorted := List.mergeSort c (fun a b => a.2.cached_at ≤ b.2.cached_at)
    let toDelete := (sorted.take 100).map Prod.fst
    List.filter (fun kv => !(toDelete.contains kv.1)) c
  else c

/-- Embedding of `MusicService.get_song_info_cached` with the network extraction
modelled by `resolve`: a cached entry younger than the TTL is a hit;
otherwise the query is re-resolved and a successful result is stored
with `cached_at = now`. -/
def get_song_info_cached (c : SongCache α) (now : Int)
    (resolve : String → Option α) (url_or_query : String) :
    Option α × SongCache α :=
  let key := cacheKey url_or_query
  let hit : Option α :=
    match cacheFind c key with
    | some e => if now - e.cached_at < CACHE_TTL then some e.data else none
    | none => none
  match hit with
  | some d => (some d, c)
  | none =>
    match resolve url_or_query with
    | some d => (some d, cleanup_cache_if_needed (cacheInsert c key ⟨d, now⟩))
    | none => (none, c)

/-! ## Spec-side policy for `dequeue_next` (claim C1)

The wording the spec gives for `dequeue_next`, to be compared with the source
embedding `get_next_song`. -/

/-- Policy `dequeue_next` as the spec words it: under song-repeat with a current
song, return a copy of it and change nothing; else pop the queue front;
else under queue-repeat with a non-empty backup, rebuild the queue from
`loop_backup` (shuffled when `shuffle`) and pop the front; else `None`. -/
def dequeue_next_policy (shuf : List Song → List Song) (st : GuildState) :
    Option Song × GuildState :=
  if st.loop_mode = .song ∧ st.current.isSome then
    (st.current.map Song.copy, st)
  else if st.queue ≠ [] then
    (st.queue.head?, { st with queue := st.queue.tail })
  else if st.loop_mode = .queue ∧ st.loop_backup ≠ [] then
    let rebuilt :=
      if st.shuffle then shuf (st.loop_backup.map Song.copy)
      else st.loop_backup.map Song.copy
    (rebuilt.head?, { st with queue := rebuilt.tail })
  else (none, st)

/-! ## Sample songs for concrete evaluations -/

/-- A sample song. -/
def songA : Song :=
  ⟨"streamA", "Title A", 200, "thumbA", "Up A", "https://w/a", "alice"⟩

/-- A second sample song, distinct `webpage_url`. -/
def songB : Song :=
  ⟨"streamB", "Title B", 100, "thumbB", "Up B", "https://w/b", "bella"⟩

/-- A third sample song, distinct `webpage_url`. -/
def songC : Song :=
  ⟨"streamC", "Title C", 300, "thumbC", "Up C", "https://w/c", "carla"⟩

/-! ## Sample states for concrete evaluations -/

/-- A guild with three queued songs. -/
def stateABC : GuildState :=
  { initialGuildState 0 with queue := [songA, songB, songC] }

/-- A guild in song-repeat mode playing `songA`. -/
def stateSongRepeat : GuildState :=
  { initialGuildState 0 with loop_mode := .song, current := some songA }

/-- A connected, idle guild with ten queued songs. -/
def stateTen : GuildState :=
  { initialGuildState 0 with vc_connected := true, queue := List.replicate 10 songA }

/-- A connected guild playing `songB` with `songC` queued. -/
def stateBC : GuildState :=
  { initialGuildState 0 with current := some songB, queue := [songC], vc_connected := true, vc_playing := true }

/-! # Theorems -/

theorem Song.copy_eq (s : Song) : s.copy = s := rfl

/-- C1: `get_next_song` follows exactly the dequeue policy as worded in the spec. -/
theorem get_next_song_follows_policy (shuf : List Song → List Song)
    (st : GuildState) :
    get_next_song shuf st = dequeue_next_policy shuf st := by
  unfold get_next_song dequeue_next_policy
  by_cases hA : st.loop_mode = .song ∧ st.current.isSome
  · simp [hA]
  · rw [if_neg hA, if_neg hA]
    cases hq : st.queue with
    | cons a l => simp
    | nil =>
      simp only [ne_eq, not_true_eq_false, if_false]
      by_cases hB : st.loop_mode = .queue ∧ st.loop_backup ≠ []
      · rw [if_pos hB, if_pos hB]
        cases hr : (if st.shuffle then shuf (st.loop_backup.map Song.copy)
            else st.loop_backup.map Song.copy) <;> simp [hr]
      · rw [if_neg hB, if_neg hB]

/-- C2 counterexample: enqueueing the same song twice puts two entries
with the same `webpage_url` into `loop_backup`, so the claimed
deduplication invariant fails. -/
theorem add_song_to_queue_dedup_counterexample :
    ¬ ((add_song_to_queue (add_song_to_queue (initialGuildState 0) songA)
          songA).loop_backup.Pairwise
        (fun a b => a.webpage_url ≠ b.webpage_url)) := by
  decide

/-- C2 (amended): `add_song_to_queue` appends the song to `queue` and
mirrors a copy into `loop_backup` unconditionally — with no
deduplication — leaving the rest of the guild state unchanged. -/
theorem add_song_to_queue_appends (st : GuildState) (song : Song) :
    (add_song_to_queue st song).queue = st.queue ++ [song] ∧
    (add_song_to_queue st song).loop_backup = st.loop_backup ++ [song] ∧
    (add_song_to_queue st song).history = st.history ∧
    (add_song_to_queue st song).history_position = st.history_position ∧
    (add_song_to_queue st song).current = st.current ∧
    (add_song_to_queue st song).loop_mode = st.loop_mode ∧
    (add_song_to_queue st song).shuffle = st.shuffle := by
  refine ⟨rfl, ?_, rfl, rfl, rfl, rfl, rfl⟩
  simp [add_song_to_queue, Song.copy_eq]

/-- C7 counterexample: for a current song with `duration = 0` (unknown
duration, e.g. a livestream) a positive target is not clamped into
`[0, max 0 (duration - 5)]`. -/
theorem seek_clamp_counterexample :
    seek_clamp 0 100 = 100 ∧ ¬ (seek_clamp 0 100 ≤ max 0 ((0 : Int) - 5)) := by
  decide

/-- C7 (amended): when the duration of the current song is positive, the seek
target is clamped into `[0, max 0 (duration - 5)]`, with `-5` becoming
`0` and `duration` becoming `max 0 (duration - 5)`; when the duration is
not positive only the lower clamp at `0` applies. -/
theorem seek_clamp_spec (d t : Int) :
    (0 < d → 0 ≤ seek_clamp d t ∧ seek_clamp d t ≤ max 0 (d - 5)) ∧
    seek_clamp d (-5) = 0 ∧
    (0 < d → seek_clamp d d = max 0 (d - 5)) ∧
    (d ≤ 0 → seek_clamp d t = if t < 0 then 0 else t) := by
  unfold seek_clamp
  refine ⟨fun hd => ?_, ?_, fun hd => ?_, fun hd => ?_⟩
  · split_ifs with h1 h2 <;> constructor <;> omega
  · norm_num
  · split_ifs with h1 h2 <;> omega
  · split_ifs with h1 h2 <;> omega

/-- C7 witness: the amended clamp at `duration = 200`, `target = 198`. -/
theorem seek_clamp_spec_witness :
    0 ≤ seek_clamp 200 198 ∧ seek_clamp 200 198 ≤ max 0 (200 - 5) := by
  exact (seek_clamp_spec 200 198).1 (by decide)

/-- C9: `remove_song_from_queue` and `move_song_in_queue` are
bounds-checked: any index outside `[0, len-1]` fails (`none` / `false`)
and leaves the state unchanged; a valid removal returns the song at that
position and erases exactly it; a valid move succeeds, places the moved
song at the target index, and erasing it there recovers the original
queue with the source index erased, so all other elements keep their
relative order. -/
theorem remove_move_bounds_checked (st : GuildState) (pos fp tp : Int) :
    ((pos < 0 ∨ (st.queue.length : Int) ≤ pos) →
      remove_song_from_queue st pos = (none, st)) ∧
    (0 ≤ pos → pos < (st.queue.length : Int) →
      (remove_song_from_queue st pos).1 = st.queue.get? pos.toNat ∧
      (remove_song_from_queue st pos).2 =
        { st with queue :=
            st.queue.take pos.toNat ++ st.queue.drop (pos.toNat + 1) }) ∧
    ((fp < 0 ∨ (st.queue.length : Int) ≤ fp ∨
        tp < 0 ∨ (st.queue.length : Int) ≤ tp) →
      move_song_in_queue st fp tp = (false, st)) ∧
    (0 ≤ fp → fp < (st.queue.length : Int) → 0 ≤ tp → tp < (st.queue.length : Int) →
      (move_song_in_queue st fp tp).1 = true ∧
      (move_song_in_queue st fp tp).2.queue.get? tp.toNat = st.queue.get? fp.toNat ∧
      (move_song_in_queue st fp tp).2.queue.eraseIdx tp.toNat =
        st.queue.eraseIdx fp.toNat ∧
      (move_song_in_queue st fp tp).2.history = st.history ∧
      (move_song_in_queue st fp tp).2.loop_backup = st.loop_backup ∧
      (move_song_in_queue st fp tp).2.current = st.current) := by
  refine ⟨fun h => ?_, fun h0 h1 => ?_, fun h => ?_, fun hf0 hf1 ht0 ht1 => ?_⟩
  · unfold remove_song_from_queue
    rw [if_pos h]
  · have hlt : pos.toNat < st.queue.length := by omega
    unfold remove_song_from_queue
    rw [if_neg (by omega)]
    exact ⟨rfl, by simp [List.eraseIdx_eq_take_drop_succ]⟩
  · unfold move_song_in_queue
    rw [dif_pos h]
  · have hne : ¬ (fp < 0 ∨ (st.queue.length : Int) ≤ fp ∨
        tp < 0 ∨ (st.queue.length : Int) ≤ tp) := by omega
    have hflt : fp.toNat < st.queue.length := by omega
    have htle : tp.toNat ≤ (st.queue.eraseIdx fp.toNat).length := by
      rw [List.length_eraseIdx_of_lt hflt]; omega
    unfold move_song_in_queue
    rw [dif_neg hne]
    refine ⟨rfl, ?_, ?_, rfl, rfl, rfl⟩
    · simp only
      rw [List.get?_eq_getElem?, List.getElem?_eq_getElem
          (by rw [List.length_insertIdx _ _ htle]; omega)]
      rw [List.getElem_insertIdx_self _ _ _ htle]
      rw [List.get?_eq_getElem?, List.getElem?_eq_getElem hflt]
      simp [List.get_eq_getElem]
    · simpa using List.eraseIdx_insertIdx tp.toNat (st.queue.eraseIdx fp.toNat)

/-- C9 witness: on a three-song queue, index 5 fails and leaves the state
alone, removing index 1 yields the second song, and moving index 0 to
index 2 places the first song at index 2. -/
theorem remove_move_bounds_checked_witness :
    remove_song_from_queue stateABC 5 = (none, stateABC) ∧
    (remove_song_from_queue stateABC 1).1 = some songB ∧
    (move_song_in_queue stateABC 0 2).2.queue.get? 2 = some songA := by
  refine ⟨(remove_move_bounds_checked stateABC 5 0 2).1 (by decide), ?_, ?_⟩
  · have h :=
      ((remove_move_bounds_checked stateABC 1 0 2).2.1 (by decide) (by decide)).1
    exact h.trans (by decide)
  · have h :=
      ((remove_move_bounds_checked stateABC 1 0 2).2.2.2
        (by decide) (by decide) (by decide) (by decide)).2.1
    exact h.trans (by decide)

/-- C10: adding a song whose `webpage_url` already occurs in `history` is
a complete no-op on the guild state. -/
theorem add_to_history_dup_noop (st : GuildState) (song : Song)
    (h : ∃ s ∈ st.history, s.webpage_url = song.webpage_url) :
    add_to_history st song = st := by
  unfold add_to_history
  rw [if_pos]
  rw [List.any_eq_true]
  obtain ⟨s, hs, he⟩ := h
  exact ⟨s, hs, by simp [he]⟩

/-- C10 witness: re-adding `songA` on top of a history already holding it
changes nothing. -/
theorem add_to_history_dup_noop_witness :
    add_to_history { initialGuildState 0 with history := [songA] } songA =
      { initialGuildState 0 with history := [songA] } :=
  add_to_history_dup_noop _ _ ⟨songA, by simp, rfl⟩

/-! ### History invariants (helper lemmas) -/

/-- Frame: `add_to_history` touches only `history`, `history_position` and
`loop_backup`. -/
theorem add_to_history_frame (st : GuildState) (song : Song) :
    (add_to_history st song).queue = st.queue ∧
    (add_to_history st song).current = st.current ∧
    (add_to_history st song).loop_mode = st.loop_mode ∧
    (add_to_history st song).shuffle = st.shuffle ∧
    (add_to_history st song).start_time = st.start_time ∧
    (add_to_history st song).seeking = st.seeking ∧
    (add_to_history st song).vc_connected = st.vc_connected ∧
    (add_to_history st song).vc_playing = st.vc_playing ∧
    (add_to_history st song).vc_paused = st.vc_paused := by
  unfold add_to_history
  split <;> simp

/-- On a fresh `webpage_url`, `add_to_history` appends the song and keeps
the most recent `MAX_HISTORY_SIZE` entries, with `history_position` set
to the new length. -/
theorem add_to_history_fresh (st : GuildState) (song : Song)
    (h : ¬ st.history.any (fun s => s.webpage_url == song.webpage_url)) :
    (add_to_history st song).history =
      (st.history ++ [song]).drop (st.history.length + 1 - MAX_HISTORY_SIZE) ∧
    (add_to_history st song).history_position =
      (add_to_history st song).history.length := by
  unfold add_to_history
  rw [if_neg (by simpa using h)]
  simp only [Song.copy_eq]
  by_cases hlen : MAX_HISTORY_SIZE < (st.history ++ [song]).length
  · rw [if_pos hlen, if_pos hlen]
    simp only [List.length_append, List.length_singleton] at hlen
    constructor
    · simp [List.length_append]
    · simp only [List.length_drop, List.length_append, List.length_singleton]
      omega
  · rw [if_neg hlen, if_neg hlen]
    simp only [List.length_append, List.length_singleton] at hlen
    constructor
    · rw [Nat.sub_eq_zero_of_le (by omega), List.drop_zero]
    · simp

/-- Helper: `(l.filter p).length < l.length` when some member fails `p`. -/
theorem length_filter_lt_of_exists {α : Type} (p : α → Bool) :
    ∀ l : List α, (∃ x ∈ l, p x = false) → (l.filter p).length < l.length
  | [], h => by simp at h
  | a :: l, h => by
    obtain ⟨x, hx, hpx⟩ := h
    by_cases hpa : p a
    · rcases List.mem_cons.mp hx with rfl | hxl
      · rw [hpa] at hpx; cases hpx
      · simp only [List.filter_cons, hpa, if_true, List.length_cons]
        exact Nat.succ_lt_succ
          (length_filter_lt_of_exists p l ⟨x, hxl, hpx⟩)
    · simp only [List.filter_cons, Bool.not_eq_true] at hpa
      rw [List.filter_cons, hpa]
      simp only [Bool.false_eq_true, if_false, List.length_cons]
      exact Nat.lt_succ_of_le (List.length_filter_le p l)

/-- One `add_to_history` step preserves the history invariants of claim
C3: bounded length, no duplicate urls, cursor at the end. -/
theorem add_to_history_inv (st : GuildState) (song : Song)
    (h1 : st.history.length ≤ MAX_HISTORY_SIZE)
    (h2 : (st.history.map Song.webpage_url).Nodup)
    (h3 : st.history_position = st.history.length) :
    (add_to_history st song).history.length ≤ MAX_HISTORY_SIZE ∧
    ((add_to_history st song).history.map Song.webpage_url).Nodup ∧
    (add_to_history st song).history_position =
      (add_to_history st song).history.length := by
  by_cases hdup : st.history.any (fun s => s.webpage_url == song.webpage_url)
  · have hst : add_to_history st song = st := by
      unfold add_to_history; rw [if_pos hdup]
    rw [hst]
    exact ⟨h1, h2, h3⟩
  · obtain ⟨hh, hp⟩ := add_to_history_fresh st song hdup
    refine ⟨?_, ?_, hp⟩
    · rw [hh]
      simp only [List.length_drop, List.length_append, List.length_singleton]
      omega
    · rw [hh]
      have hnodup : ((st.history ++ [song]).map Song.webpage_url).Nodup := by
        rw [List.map_append]
        rw [List.nodup_append]
        refine ⟨h2, List.nodup_singleton _, ?_⟩
        intro u hu hu1
        simp only [List.map_cons, List.map_nil, List.mem_singleton] at hu1
        subst hu1
        obtain ⟨s, hs, hsu⟩ := List.mem_map.mp hu
        exact hdup (List.any_eq_true.mpr ⟨s, hs, by simp [hsu]⟩)
      have hsub : List.Sublist
          (((st.history ++ [song]).drop
            (st.history.length + 1 - MAX_HISTORY_SIZE)).map Song.webpage_url)
          ((st.history ++ [song]).map Song.webpage_url) :=
        List.Sublist.map _ (List.drop_sublist _ _)
      exact hnodup.sublist hsub

/-- C3: after any sequence of `add_to_history` calls from a fresh guild,
`history` stays within `MAX_HISTORY_SIZE`, holds no two entries with
the same `webpage_url`, and `history_position` equals the history
length (so every successful append sets it to the new length); moreover
the next fresh append keeps exactly the most recent `MAX_HISTORY_SIZE`
entries of `history ++ [song]`, dropping oldest first. -/
theorem history_sequence_invariant (now : Nat) (songs : List Song) :
    (songs.foldl add_to_history (initialGuildState now)).history.length ≤
      MAX_HISTORY_SIZE ∧
    ((songs.foldl add_to_history (initialGuildState now)).history.map
      Song.webpage_url).Nodup ∧
    (songs.foldl add_to_history (initialGuildState now)).history_position =
      (songs.foldl add_to_history (initialGuildState now)).history.length ∧
    (∀ song, ¬ (songs.foldl add_to_history (initialGuildState now)).history.any
        (fun s => s.webpage_url == song.webpage_url) →
      (add_to_history (songs.foldl add_to_history (initialGuildState now))
          song).history =
        ((songs.foldl add_to_history (initialGuildState now)).history ++
            [song]).drop
          ((songs.foldl add_to_history (initialGuildState now)).history.length +
            1 - MAX_HISTORY_SIZE) ∧
      (add_to_history (songs.foldl add_to_history (initialGuildState now))
          song).history_position =
        (add_to_history (songs.foldl add_to_history (initialGuildState now))
          song).history.length) := by
  have main : ∀ (l : List Song) (st : GuildState),
      st.history.length ≤ MAX_HISTORY_SIZE →
      (st.history.map Song.webpage_url).Nodup →
      st.history_position = st.history.length →
      (l.foldl add_to_history st).history.length ≤ MAX_HISTORY_SIZE ∧
      ((l.foldl add_to_history st).history.map Song.webpage_url).Nodup ∧
      (l.foldl add_to_history st).history_position =
        (l.foldl add_to_history st).history.length := by
    intro l
    induction l with
    | nil => intro st h1 h2 h3; exact ⟨h1, h2, h3⟩
    | cons a l ih =>
      intro st h1 h2 h3
      simp only [List.foldl_cons]
      obtain ⟨g1, g2, g3⟩ := add_to_history_inv st a h1 h2 h3
      exact ih _ g1 g2 g3
  obtain ⟨h1, h2, h3⟩ := main songs (initialGuildState now)
    (by simp [initialGuildState]) (by simp [initialGuildState])
    (by simp [initialGuildState])
  exact ⟨h1, h2, h3, fun song hnd => add_to_history_fresh _ song hnd⟩

/-- C3 witness: the invariants after adding two songs, and the
drop-oldest equation for a third fresh song. -/
theorem history_sequence_invariant_witness :
    ([songA, songB].foldl add_to_history (initialGuildState 0)).history.length ≤
      MAX_HISTORY_SIZE ∧
    (add_to_history ([songA, songB].foldl add_to_history (initialGuildState 0))
        songC).history =
      (([songA, songB].foldl add_to_history (initialGuildState 0)).history ++
          [songC]).drop
        (([songA, songB].foldl add_to_history (initialGuildState 0)).history.length +
          1 - MAX_HISTORY_SIZE) := by
  have h := history_sequence_invariant 0 [songA, songB]
  exact ⟨h.1, (h.2.2.2 songC (by decide)).1⟩

/-! ### Playback engine (helper lemmas) -/

/-- Closed form of `_handle_song_skip`: the failed song goes to history
unless song-repeat is active, in which case song-repeat is turned off
instead; one skip notice is emitted. -/
theorem handle_song_skip_eq (st : GuildState) (song : Song) :
    handle_song_skip st song =
      (if st.loop_mode = .song then { st with loop_mode := .off }
       else add_to_history st song,
       [PEvent.skipNotice song.title]) := by
  simp only [handle_song_skip]
  by_cases h : st.loop_mode = .song
  · simp [h]
  · simp [h, (add_to_history_frame st song).2.2.1]

/-- When neither song-repeat applies nor the queue is empty,
`get_next_song` pops the queue front. -/
theorem get_next_song_pop (shuf : List Song → List Song) (st : GuildState)
    (a : Song) (l : List Song) (hq : st.queue = a :: l)
    (hcond : ¬ (st.loop_mode = .song ∧ st.current.isSome)) :
    get_next_song shuf st = (some a, { st with queue := l }) := by
  unfold get_next_song
  rw [if_neg hcond, hq]

/-- One failing round of the `play_next` skip loop: the candidate is
popped, extraction fails, the skip effects apply, and the loop
continues with one attempt less. -/
theorem play_next_loop_step_fail (shuf : List Song → List Song)
    (resolveStream : Song → Nat → Option Song) (playOk : Song → Bool)
    (now fuel : Nat) (st : GuildState) (a : Song) (l : List Song)
    (hq : st.queue = a :: l)
    (hcond : ¬ (st.loop_mode = .song ∧ st.current.isSome))
    (hnone : (List.range MAX_STREAM_RETRIES).findSome? (resolveStream a) = none) :
    play_next_loop shuf resolveStream playOk now (fuel + 1) st =
      ((play_next_loop shuf resolveStream playOk now fuel
          (handle_song_skip { st with queue := l } a).1).1,
       (handle_song_skip { st with queue := l } a).2 ++
        (play_next_loop shuf resolveStream playOk now fuel
          (handle_song_skip { st with queue := l } a).1).2) := by
  have hget := get_next_song_pop shuf st a l hq hcond
  have hext : extract_and_play_song resolveStream playOk now
      { st with queue := l } a =
      ((handle_song_skip { st with queue := l } a).1,
       ((handle_song_skip { st with queue := l } a).2, false)) := by
    unfold extract_and_play_song
    rw [hnone]
  simp [play_next_loop, hget, hext]

/-- One successful round of the `play_next` skip loop: the candidate is
popped, its stream resolves to `fresh`, playback starts, and the loop
stops with the started state. -/
theorem play_next_loop_step_success (shuf : List Song → List Song)
    (resolveStream : Song → Nat → Option Song) (playOk : Song → Bool)
    (now fuel : Nat) (st : GuildState) (a fresh : Song) (l : List Song)
    (hq : st.queue = a :: l)
    (hcond : ¬ (st.loop_mode = .song ∧ st.current.isSome))
    (hfind : (List.range MAX_STREAM_RETRIES).findSome? (resolveStream a) =
      some fresh)
    (hplay : playOk fresh = true) :
    play_next_loop shuf resolveStream playOk now (fuel + 1) st =
      ({ st with queue := l, current := some fresh, seek_offset := 0,
                 position := 0, start_time := some now,
                 last_activity := some now, vc_playing := true,
                 vc_paused := false },
       [PEvent.nowPlayingUpdate fresh.title, PEvent.save]) := by
  have hget := get_next_song_pop shuf st a l hq hcond
  have hext : extract_and_play_song resolveStream playOk now
      { st with queue := l } a =
      ({ st with queue := l, current := some fresh, seek_offset := 0,
                 position := 0, start_time := some now,
                 last_activity := some now, vc_playing := true,
                 vc_paused := false },
       ([PEvent.nowPlayingUpdate fresh.title, PEvent.save], true)) := by
    simp [extract_and_play_song, hfind, start_playback, hplay]
  simp [play_next_loop, hget, hext]

/-- C5 counterexample: with song-repeat active, the skipped candidate is
NOT appended to history (the claim says it is appended after song-repeat
is disabled); the code only disables song-repeat. -/
theorem handle_song_skip_counterexample :
    stateSongRepeat.loop_mode = .song ∧
    (handle_song_skip stateSongRepeat songA).1.history = [] ∧
    songA ∉ (handle_song_skip stateSongRepeat songA).1.history ∧
    (handle_song_skip stateSongRepeat songA).1.loop_mode = .off := by
  decide

/-- C5 (amended): on stream-resolution exhaustion the candidate is
appended to history when song-repeat is off; when song-repeat is active
the append is skipped and song-repeat is disabled instead; in both cases
one skip notification is emitted, and the skip loop of `play_next`
continues to the next candidate. -/
theorem handle_song_skip_spec (st : GuildState) (song : Song) :
    (st.loop_mode ≠ .song →
      handle_song_skip st song =
        (add_to_history st song, [PEvent.skipNotice song.title])) ∧
    (st.loop_mode = .song →
      handle_song_skip st song =
        ({ st with loop_mode := .off }, [PEvent.skipNotice song.title])) ∧
    (∀ (shuf : List Song → List Song)
        (resolveStream : Song → Nat → Option Song) (playOk : Song → Bool)
        (now fuel : Nat) (rest : List Song),
      (∀ n, resolveStream song n = none) →
      ¬ (st.loop_mode = .song ∧ st.current.isSome) →
      st.queue = song :: rest →
      play_next_loop shuf resolveStream playOk now (fuel + 1) st =
        ((play_next_loop shuf resolveStream playOk now fuel
            (handle_song_skip { st with queue := rest } song).1).1,
         (handle_song_skip { st with queue := rest } song).2 ++
          (play_next_loop shuf resolveStream playOk now fuel
            (handle_song_skip { st with queue := rest } song).1).2)) := by
  refine ⟨fun h => ?_, fun h => ?_, fun shuf resolveStream playOk now fuel rest hf hcond hq => ?_⟩
  · rw [handle_song_skip_eq, if_neg h]
  · rw [handle_song_skip_eq, if_pos h]
  · refine play_next_loop_step_fail shuf resolveStream playOk now fuel st
      song rest hq hcond ?_
    rw [List.findSome?_eq_none_iff]
    intro x _
    exact hf x

/-- C5 witness: skipping `songA` in loop-off mode appends it to history
and emits the notice; in song-repeat mode it only disables the loop. -/
theorem handle_song_skip_spec_witness :
    (handle_song_skip stateABC songA =
      (add_to_history stateABC songA, [PEvent.skipNotice songA.title])) ∧
    (handle_song_skip stateSongRepeat songA =
      ({ stateSongRepeat with loop_mode := .off },
       [PEvent.skipNotice songA.title])) ∧
    (play_next_loop (fun l => l) (fun _ _ => none) (fun _ => true) 0 1
        stateABC).2.take 1 = [PEvent.skipNotice songA.title] := by
  refine ⟨(handle_song_skip_spec stateABC songA).1 (by decide),
    (handle_song_skip_spec stateSongRepeat songA).2.1 (by decide), ?_⟩
  have h := (handle_song_skip_spec stateABC songA).2.2 (fun l => l)
    (fun _ _ => none) (fun _ => true) 0 0 [songB, songC]
    (fun n => rfl) (by decide) rfl
  rw [h]
  decide

/-- Skip-loop analysis when every stream extraction fails: the loop
burns all its fuel, ends in `_handle_max_retries_exceeded`, and emits
exactly one terminal failure notice plus a snapshot save. -/
theorem play_next_loop_all_fail (shuf : List Song → List Song)
    (resolveStream : Song → Nat → Option Song) (playOk : Song → Bool)
    (now : Nat) (hfail : ∀ s n, resolveStream s n = none) :
    ∀ (fuel : Nat) (st : GuildState), st.loop_mode = .off →
      fuel ≤ st.queue.length →
      (play_next_loop shuf resolveStream playOk now fuel st).1.current = none ∧
      (play_next_loop shuf resolveStream playOk now fuel st).1.start_time = none ∧
      (play_next_loop shuf resolveStream playOk now fuel st).2.count
        PEvent.terminalFailure = 1 ∧
      PEvent.save ∈ (play_next_loop shuf resolveStream playOk now fuel st).2 := by
  intro fuel
  induction fuel with
  | zero =>
    intro st hmode hlen
    exact ⟨rfl, rfl, rfl, List.Mem.head _⟩
  | succ fuel ih =>
    intro st hmode hlen
    obtain ⟨a, l, hq⟩ : ∃ a l, st.queue = a :: l := by
      cases hq2 : st.queue with
      | nil => rw [hq2] at hlen; simp at hlen
      | cons a l => exact ⟨a, l, rfl⟩
    have hcond : ¬ (st.loop_mode = .song ∧ st.current.isSome) := by
      rw [hmode]; simp
    have hnone : (List.range MAX_STREAM_RETRIES).findSome? (resolveStream a) =
        none := by
      rw [List.findSome?_eq_none_iff]
      intro x _
      exact hfail a x
    rw [play_next_loop_step_fail shuf resolveStream playOk now fuel st a l hq
      hcond hnone]
    have hskip : (handle_song_skip { st with queue := l } a).1 =
        add_to_history { st with queue := l } a := by
      rw [handle_song_skip_eq]
      rw [if_neg (by simp [hmode])]
    have hmode2 : (handle_song_skip { st with queue := l } a).1.loop_mode =
        .off := by
      rw [hskip, (add_to_history_frame _ _).2.2.1]
      exact hmode
    have hlen2 : fuel ≤ (handle_song_skip { st with queue := l } a).1.queue.length := by
      rw [hskip, (add_to_history_frame _ _).1]
      show fuel ≤ l.length
      have hlen2a : fuel + 1 ≤ l.length + 1 := by
        rw [hq] at hlen
        simpa using hlen
      omega
    obtain ⟨g1, g2, g3, g4⟩ :=
      ih ((handle_song_skip { st with queue := l } a).1) hmode2 hlen2
    have hevs : (handle_song_skip { st with queue := l } a).2 =
        [PEvent.skipNotice a.title] := by
      rw [handle_song_skip_eq]
    refine ⟨g1, g2, ?_, ?_⟩
    · rw [hevs, List.count_append]
      simp [g3, List.count_cons]
    · rw [hevs]
      exact List.mem_append_right _ g4

/-- C4: when stream extraction fails for every candidate across all
`MAX_SKIP_ATTEMPTS` rounds of `play_next`, the engine halts for the
guild: `current` is cleared, the playback clock is stopped (idle),
exactly one terminal failure notification is emitted and a queue
snapshot save is triggered. -/
theorem play_next_all_failures_halt (shuf : List Song → List Song)
    (resolveStream : Song → Nat → Option Song) (playOk : Song → Bool)
    (now : Nat) (st : GuildState)
    (hfail : ∀ s n, resolveStream s n = none)
    (hseek : st.seeking = false) (hvc : st.vc_connected = true)
    (hcur : st.current = none) (hmode : st.loop_mode = .off)
    (hlen : MAX_SKIP_ATTEMPTS ≤ st.queue.length) :
    (play_next shuf resolveStream playOk now st).1.current = none ∧
    (play_next shuf resolveStream playOk now st).1.start_time = none ∧
    (play_next shuf resolveStream playOk now st).2.count
      PEvent.terminalFailure = 1 ∧
    PEvent.save ∈ (play_next shuf resolveStream playOk now st).2 := by
  have hpn : play_next shuf resolveStream playOk now st =
      play_next_loop shuf resolveStream playOk now MAX_SKIP_ATTEMPTS st := by
    unfold play_next
    rw [if_neg (by simp [hseek]), if_neg (by simp [hcur]),
      if_neg (by simp [hvc])]
  rw [hpn]
  exact play_next_loop_all_fail shuf resolveStream playOk now hfail
    MAX_SKIP_ATTEMPTS st hmode hlen

/-- C4 witness: a connected idle guild with ten queued songs and an
always-failing extractor ends with no current song and one terminal
failure notice. -/
theorem play_next_all_failures_halt_witness :
    (play_next (fun l => l) (fun _ _ => none) (fun _ => true) 5
      stateTen).1.current = none ∧
    (play_next (fun l => l) (fun _ _ => none) (fun _ => true) 5
      stateTen).2.count PEvent.terminalFailure = 1 := by
  have h := play_next_all_failures_halt (fun l => l) (fun _ _ => none)
    (fun _ => true) 5 stateTen (fun s n => rfl) rfl rfl rfl rfl (by decide)
  exact ⟨h.1, h.2.2.1⟩

/-- C6: an involuntary voice disconnect while `current = B`, `queue = [C]`
schedules a recovery attempt; on successful reconnection the resume
handler reinserts the interrupted song at the queue head (the queue
becomes `[B, C]`) and `play_next` restarts `B` with `seek_offset = 0`,
leaving `[C]` queued. -/
theorem voice_disconnect_recovery (B C : Song) (st : GuildState)
    (shuf : List Song → List Song) (resolveStream : Song → Nat → Option Song)
    (playOk : Song → Bool) (now : Nat)
    (hcur : st.current = some B) (hq : st.queue = [C])
    (hint : st.intentional_disconnect = false) (hseek : st.seeking = false)
    (hres : resolveStream B 0 = some B) (hplay : playOk B = true) :
    (on_voice_disconnect true st).2 = true ∧
    resume_playback_after_reconnect shuf resolveStream playOk now
        { (on_voice_disconnect true st).1 with vc_connected := true } =
      play_next shuf resolveStream playOk now
        { st with vc_connected := true, vc_playing := false,
                  vc_paused := false, current := none, queue := [B, C] } ∧
    (resume_playback_after_reconnect shuf resolveStream playOk now
        { (on_voice_disconnect true st).1 with
            vc_connected := true }).1.current = some B ∧
    (resume_playback_after_reconnect shuf resolveStream playOk now
        { (on_voice_disconnect true st).1 with
            vc_connected := true }).1.seek_offset = 0 ∧
    (resume_playback_after_reconnect shuf resolveStream playOk now
        { (on_voice_disconnect true st).1 with
            vc_connected := true }).1.queue = [C] := by
  have hdis : on_voice_disconnect true st =
      ({ st with vc_connected := false, vc_playing := false,
                 vc_paused := false }, true) := by
    unfold on_voice_disconnect
    rw [if_neg (by simp [hint]), if_pos (by simp [hcur])]
  have hresume : resume_playback_after_reconnect shuf resolveStream playOk now
      { (on_voice_disconnect true st).1 with vc_connected := true } =
      play_next shuf resolveStream playOk now
        { st with vc_connected := true, vc_playing := false,
                  vc_paused := false, current := none, queue := [B, C] } := by
    simp only [hdis, resume_playback_after_reconnect, hcur, hq]
  have hplayn : play_next shuf resolveStream playOk now
      { st with vc_connected := true, vc_playing := false,
                vc_paused := false, current := none, queue := [B, C] } =
      ({ st with vc_connected := true, vc_paused := false,
                 queue := [C], current := some B, seek_offset := 0,
                 position := 0, start_time := some now,
                 last_activity := some now, vc_playing := true },
       [PEvent.nowPlayingUpdate B.title, PEvent.save]) := by
    unfold play_next
    rw [if_neg (by simp [hseek]), if_neg (by simp), if_neg (by simp)]
    have hfind : (List.range MAX_STREAM_RETRIES).findSome? (resolveStream B) =
        some B := by
      rw [show List.range MAX_STREAM_RETRIES = [0, 1, 2] from rfl]
      simp [List.findSome?_cons, hres]
    rw [show MAX_SKIP_ATTEMPTS = 9 + 1 from rfl]
    rw [play_next_loop_step_success shuf resolveStream playOk now 9 _ B B [C]
      rfl (by simp) hfind hplay]
  refine ⟨by rw [hdis], hresume, ?_, ?_, ?_⟩ <;> rw [hresume, hplayn]

/-- C6 witness: the recovery scenario at the concrete state `stateBC`
(`current = songB`, `queue = [songC]`). -/
theorem voice_disconnect_recovery_witness :
    (on_voice_disconnect true stateBC).2 = true ∧
    (resume_playback_after_reconnect (fun l => l) (fun s _ => some s)
        (fun _ => true) 7
        { (on_voice_disconnect true stateBC).1 with
            vc_connected := true }).1.current = some songB ∧
    (resume_playback_after_reconnect (fun l => l) (fun s _ => some s)
        (fun _ => true) 7
        { (on_voice_disconnect true stateBC).1 with
            vc_connected := true }).1.seek_offset = 0 := by
  have h := voice_disconnect_recovery songB songC stateBC (fun l => l)
    (fun s _ => some s) (fun _ => true) 7 rfl rfl rfl rfl rfl rfl
  exact ⟨h.1, h.2.2.1, h.2.2.2.1⟩

/-! ### Song-info cache (helper lemmas) -/

/-- Looking up the key just inserted finds the new entry. -/
theorem cacheFind_insert_self {α : Type} (c : SongCache α) (k : String)
    (e : CacheEntry α) : cacheFind (cacheInsert c k e) k = some e := by
  unfold cacheFind cacheInsert
  rw [List.find?_cons_of_pos _ (by simp)]
  rfl

/-- Re-inserting an existing key does not grow the cache. -/
theorem cacheInsert_length_le {α : Type} (c : SongCache α) (k : String)
    (e : CacheEntry α) (h : (cacheFind c k).isSome) :
    (cacheInsert c k e).length ≤ c.length := by
  obtain ⟨kv, hfind⟩ : ∃ kv, List.find? (fun kv => kv.1 == k) c = some kv := by
    unfold cacheFind at h
    cases hf : List.find? (fun kv => kv.1 == k) c with
    | none => rw [hf] at h; simp at h
    | some kv => exact ⟨kv, rfl⟩
  have hmem := List.mem_of_find?_eq_some hfind
  have hp := List.find?_some hfind
  have hlt : (List.filter (fun kv => kv.1 != k) c).length < c.length := by
    apply length_filter_lt_of_exists
    exact ⟨kv, hmem, by simpa [bne] using hp⟩
  unfold cacheInsert
  simp only [List.length_cons]
  omega

/-- C8: a cached entry inserted at time `t` is a hit exactly while
`now - cached_at < CACHE_TTL`: it is returned unchanged at
`t + TTL - 1`, re-resolved at `t + TTL + 1`, and the fresh result is
stored with `cached_at = now`. -/
theorem song_cache_ttl {α : Type} (c : SongCache α) (t : Int)
    (resolve : String → Option α) (q : String) (d : α)
    (hc : cacheFind c (cacheKey q) = some ⟨d, t⟩) :
    get_song_info_cached c (t + CACHE_TTL - 1) resolve q = (some d, c) ∧
    (get_song_info_cached c (t + CACHE_TTL + 1) resolve q).1 = resolve q ∧
    (∀ d2, resolve q = some d2 → c.length ≤ MAX_CACHE_SIZE →
      cacheFind (get_song_info_cached c (t + CACHE_TTL + 1) resolve q).2
        (cacheKey q) = some ⟨d2, t + CACHE_TTL + 1⟩) ∧
    (∀ now : Int, now - t < CACHE_TTL →
      get_song_info_cached c now resolve q = (some d, c)) ∧
    (∀ now : Int, CACHE_TTL ≤ now - t →
      (get_song_info_cached c now resolve q).1 = resolve q) := by
  have hhit : ∀ now : Int, now - t < CACHE_TTL →
      get_song_info_cached c now resolve q = (some d, c) := by
    intro now hn
    simp only [get_song_info_cached, hc]
    rw [if_pos hn]
  have hmiss : ∀ now : Int, CACHE_TTL ≤ now - t →
      get_song_info_cached c now resolve q =
        (match resolve q with
         | some d2 =>
           (some d2,
            cleanup_cache_if_needed (cacheInsert c (cacheKey q) ⟨d2, now⟩))
         | none => (none, c)) := by
    intro now hn
    simp only [get_song_info_cached, hc]
    rw [if_neg (by omega)]
  have hmiss1 : ∀ now : Int, CACHE_TTL ≤ now - t →
      (get_song_info_cached c now resolve q).1 = resolve q := by
    intro now hn
    rw [hmiss now hn]
    cases hr : resolve q <;> simp [hr]
  refine ⟨hhit _ (by omega), hmiss1 _ (by omega), ?_, hhit, hmiss1⟩
  intro d2 hr hlen
  have hcl : cleanup_cache_if_needed
      (cacheInsert c (cacheKey q) ⟨d2, t + CACHE_TTL + 1⟩) =
      cacheInsert c (cacheKey q) ⟨d2, t + CACHE_TTL + 1⟩ := by
    have hle := cacheInsert_length_le c (cacheKey q)
      (⟨d2, t + CACHE_TTL + 1⟩ : CacheEntry α) (by rw [hc]; rfl)
    unfold cleanup_cache_if_needed
    rw [if_neg (by omega)]
  rw [hmiss _ (by omega), hr]
  simp only [hcl]
  exact cacheFind_insert_self c (cacheKey q) _

/-- C8 witness: a `Nat`-valued cache entry inserted at `t = 100` is a hit
at `t + TTL - 1`, and at `t + TTL + 1` the fresh value from the resolver is
returned and stored with the new timestamp. -/
theorem song_cache_ttl_witness :
    get_song_info_cached [("w", (⟨7, 100⟩ : CacheEntry Nat))]
      (100 + CACHE_TTL - 1) (fun _ => some 9) "w" =
      (some 7, [("w", ⟨7, 100⟩)]) ∧
    (get_song_info_cached [("w", (⟨7, 100⟩ : CacheEntry Nat))]
      (100 + CACHE_TTL + 1) (fun _ => some 9) "w").1 = some 9 ∧
    cacheFind (get_song_info_cached [("w", (⟨7, 100⟩ : CacheEntry Nat))]
        (100 + CACHE_TTL + 1) (fun _ => some 9) "w").2 (cacheKey "w") =
      some ⟨9, 100 + CACHE_TTL + 1⟩ := by
  have h := song_cache_ttl [("w", (⟨7, 100⟩ : CacheEntry Nat))] 100
    (fun _ => some 9) "w" 7 (by decide)
  exact ⟨h.1, h.2.1, h.2.2.1 9 rfl (by decide)⟩

end MusicBot
